import Mathlib

/-!
Verification of the route-optimization core of BE_Route_Bot
(`src/be_route_bot.py`; `src/be_route_bot_patched.py` contains an identical
copy of the core functions `haversine`, `route_distance`, `nearest_neighbor`,
`two_opt`, `build_maps_links`).

The embedding is shallow:
* `haversine` is the exact real-number semantics of the Python formula
  (floats are modelled by real numbers).
* `math.atan2` is modelled by `atan2` below, the standard real two-argument
  arctangent (signed zeros, which real numbers do not have, are irrelevant
  here: `haversine` only ever calls it with non-negative arguments).
* The combinatorial functions (`route_distance`, `nearest_neighbor`,
  `two_opt`, `build_maps_links`) are defined generically over the distance
  function and the coordinate type, and then specialised to `haversine`;
  the generic versions are computable.
* Python's unbounded `while improved:` loop of `two_opt` is a well-founded
  recursion: each improving pass strictly decreases total route length, and
  only finitely many reorderings of the tour exist.
* `build_maps_links` builds URL strings whose semantic content is the
  origin / destination / waypoints of each chunk; the embedding keeps these
  three components (the spec's Navigation Descriptor) and abstracts the URL
  text around them.
-/

open Real List

/-- Model of `math.radians`: degrees to radians. -/
noncomputable def radians (x : ℝ) : ℝ := x * Real.pi / 180

/-- Model of `math.atan2 y x` on the reals (C-library definition). The signed
zero distinction of floats does not exist on ℝ; `haversine` only calls this
with `y ≥ 0` and `x ≥ 0`, where that distinction is irrelevant. -/
noncomputable def atan2 (y x : ℝ) : ℝ :=
  if 0 < x then Real.arctan (y / x)
  else if x < 0 then
    (if 0 ≤ y then Real.arctan (y / x) + Real.pi else Real.arctan (y / x) - Real.pi)
  else (if 0 < y then Real.pi / 2 else if y < 0 then -(Real.pi / 2) else 0)

/-- `haversine(coord1, coord2)` from the source: great-circle distance with
mean Earth radius 6371.0 km. A coordinate is a `(latitude, longitude)` pair. -/
noncomputable def haversine (coord1 coord2 : ℝ × ℝ) : ℝ :=
  let R : ℝ := 6371.0
  let phi1 := radians coord1.1
  let phi2 := radians coord2.1
  let dphi := radians (coord2.1 - coord1.1)
  let dlambda := radians (coord2.2 - coord1.2)
  let a := Real.sin (dphi / 2) ^ 2 +
    Real.cos phi1 * Real.cos phi2 * Real.sin (dlambda / 2) ^ 2
  2 * R * atan2 (Real.sqrt a) (Real.sqrt (1 - a))

section Generic

variable {α : Type*} [Inhabited α] {K : Type*} [LinearOrderedField K]

/-- `route_distance(route, points)` from the source, generic in the distance
function `d`: sum of `d points[route[i]] points[route[i+1]]` over consecutive
positions. (List indexing is total via `getD`; the source only evaluates it
in bounds.) -/
def route_distanceG (d : α → α → K) (route : List ℕ) (points : List α) : K :=
  ((List.range (route.length - 1)).map (fun i =>
    d (points.getD (route.getD i 0) default)
      (points.getD (route.getD (i + 1) 0) default))).sum

/-- Python's `min(l, key)` for a non-empty list `l`: linear scan that replaces
the current minimum only on strictly smaller key, so the first minimum wins. -/
def argminKey (key : ℕ → K) : List ℕ → ℕ
  | [] => 0
  | x :: xs => xs.foldl (fun m i => if key i < key m then i else m) x

/-- The `min(unvisited, key=...)` selection inside `nearest_neighbor`. -/
def nnNext (d : α → α → K) (points : List α) (current : ℕ)
    (unvisited : List ℕ) : ℕ :=
  argminKey (fun i => d (points.getD current default) (points.getD i default))
    unvisited

lemma argminKey_foldl_mem (key : ℕ → K) :
    ∀ (xs : List ℕ) (a : ℕ),
      xs.foldl (fun m i => if key i < key m then i else m) a ∈ a :: xs := by
  intro xs
  induction xs with
  | nil => intro a; simp
  | cons x xs ih =>
    intro a
    simp only [List.foldl_cons]
    by_cases hc : key x < key a
    · rw [if_pos hc]
      rcases List.mem_cons.1 (ih x) with h' | h'
      · simp [h']
      · simp [h']
    · rw [if_neg hc]
      rcases List.mem_cons.1 (ih a) with h' | h'
      · simp [h']
      · simp [h']

lemma argminKey_mem (key : ℕ → K) (l : List ℕ) (h : l ≠ []) :
    argminKey key l ∈ l := by
  cases l with
  | nil => exact absurd rfl h
  | cons x xs => exact argminKey_foldl_mem key xs x

lemma nnNext_mem (d : α → α → K) (points : List α) (current : ℕ)
    (unvisited : List ℕ) (h : unvisited ≠ []) :
    nnNext d points current unvisited ∈ unvisited :=
  argminKey_mem _ _ h

/-- The `while unvisited:` loop of `nearest_neighbor`: pick the nearest
unvisited index, append it to the path, remove it, repeat. -/
def nnLoop (d : α → α → K) (points : List α) (current : ℕ)
    (unvisited : List ℕ) (path : List ℕ) : List ℕ :=
  if h : unvisited = [] then path
  else
    nnLoop d points (nnNext d points current unvisited)
      (unvisited.erase (nnNext d points current unvisited))
      (path ++ [nnNext d points current unvisited])
termination_by unvisited.length
decreasing_by
  have hm : nnNext d points current unvisited ∈ unvisited := nnNext_mem _ _ _ _ h
  have hl : 0 < unvisited.length := List.length_pos.2 h
  rw [List.length_erase_of_mem hm]
  omega

/-- `nearest_neighbor(points, start_index)` from the source, generic in the
distance function. -/
def nearest_neighborG (d : α → α → K) (points : List α)
    (start_index : ℕ) : List ℕ :=
  nnLoop d points start_index ((List.range points.length).erase start_index)
    [start_index]

/-- One candidate 2-opt move of the source's inner loop body: skip when
`j - i == 1`, otherwise reverse `best[i:j]` and keep the result only when
strictly shorter. The state is `(best, improved)`. -/
def twoOptStep (d : α → α → K) (points : List α) (st : List ℕ × Bool)
    (i j : ℕ) : List ℕ × Bool :=
  if j - i = 1 then st
  else
    let new_route := st.1.take i ++ (((st.1.drop i).take (j - i)).reverse ++ st.1.drop j)
    if route_distanceG d new_route points < route_distanceG d st.1 points then
      (new_route, true)
    else st

/-- One full pass of the source's `while improved:` body: the double `for`
loop over cut points `i ∈ range(1, len(best)-2)` and `j ∈ range(i+1, len(best))`,
started with `improved = False`. -/
def twoOptPass (d : α → α → K) (points : List α) (best : List ℕ) :
    List ℕ × Bool :=
  (List.range' 1 (best.length - 3)).foldl
    (fun st i =>
      (List.range' (i + 1) (st.1.length - (i + 1))).foldl
        (fun st2 j => twoOptStep d points st2 i j) st)
    (best, false)

/-- Everything one candidate move can do to the `(best, improved)` state:
either it leaves the state untouched, or it strictly shrinks the total route
length, sets the flag, and replaces the route by a rearrangement with the
same first and last elements. -/
def StepRel (d : α → α → K) (points : List α) (st st' : List ℕ × Bool) : Prop :=
  st' = st ∨
    (route_distanceG d st'.1 points < route_distanceG d st.1 points ∧
      st'.2 = true ∧ st'.1 ~ st.1 ∧
      st'.1.head? = st.1.head? ∧ st'.1.getLast? = st.1.getLast?)

lemma StepRel.refl (d : α → α → K) (points : List α) (st : List ℕ × Bool) :
    StepRel d points st st := Or.inl rfl

lemma StepRel.trans {d : α → α → K} {points : List α}
    {s t u : List ℕ × Bool} (h1 : StepRel d points s t)
    (h2 : StepRel d points t u) : StepRel d points s u := by
  rcases h1 with rfl | ⟨hd1, hb1, hp1, hh1, hl1⟩
  · exact h2
  · rcases h2 with rfl | ⟨hd2, hb2, hp2, hh2, hl2⟩
    · exact Or.inr ⟨hd1, hb1, hp1, hh1, hl1⟩
    · exact Or.inr ⟨lt_trans hd2 hd1, hb2, hp2.trans hp1,
        hh2.trans hh1, hl2.trans hl1⟩

lemma newRoute_perm (l : List ℕ) (i j : ℕ) (hij : i ≤ j) :
    l.take i ++ (((l.drop i).take (j - i)).reverse ++ l.drop j) ~ l := by
  have h1 : ((l.drop i).take (j - i)).reverse ~ (l.drop i).take (j - i) :=
    List.reverse_perm _
  have h2 : l.take i ++ (((l.drop i).take (j - i)).reverse ++ l.drop j) ~
      l.take i ++ ((l.drop i).take (j - i) ++ l.drop j) :=
    List.Perm.append_left _ (h1.append_right _)
  refine h2.trans ?_
  have h3 : l.take i ++ ((l.drop i).take (j - i) ++ l.drop j) =
      l.take j ++ l.drop j := by
    rw [← List.append_assoc, ← List.take_add]
    congr 2
    omega
  rw [h3, List.take_append_drop]

lemma newRoute_head (l : List ℕ) (i j : ℕ) (hi : 1 ≤ i) :
    (l.take i ++ (((l.drop i).take (j - i)).reverse ++ l.drop j)).head? =
      l.head? := by
  cases l with
  | nil => simp
  | cons a l' =>
    obtain ⟨i', rfl⟩ : ∃ i', i = i' + 1 := ⟨i - 1, by omega⟩
    simp [List.take_succ_cons]

lemma getLast?_drop_of_lt (l : List α) :
    ∀ j, j < l.length → (l.drop j).getLast? = l.getLast? := by
  induction l with
  | nil => intro j h; simp at h
  | cons a l' ih =>
    intro j h
    cases j with
    | zero => simp
    | succ j' =>
      have hj' : j' < l'.length := by simpa using h
      have hne : l' ≠ [] := List.ne_nil_of_length_pos (by omega)
      rw [List.drop_succ_cons, ih j' hj']
      cases l' with
      | nil => exact absurd rfl hne
      | cons b l'' => simp

lemma newRoute_last (l : List ℕ) (i j : ℕ) (hj : j < l.length) :
    (l.take i ++ (((l.drop i).take (j - i)).reverse ++ l.drop j)).getLast? =
      l.getLast? := by
  have hne : l.drop j ≠ [] := by
    have : (l.drop j).length = l.length - j := List.length_drop _ _
    intro hcon
    rw [hcon] at this
    simp at this
    omega
  rw [List.getLast?_append, List.getLast?_append]
  have h1 : (l.drop j).getLast? = l.getLast? := getLast?_drop_of_lt l j hj
  cases hopt : (l.drop j).getLast? with
  | none => exact absurd (List.getLast?_eq_none_iff.mp hopt) hne
  | some a => simp [hopt, ← h1]

lemma twoOptStep_rel (d : α → α → K) (points : List α) (st : List ℕ × Bool)
    (i j : ℕ) (hi : 1 ≤ i) (hij : i < j) (hj : j < st.1.length) :
    StepRel d points st (twoOptStep d points st i j) := by
  unfold twoOptStep
  by_cases h1 : j - i = 1
  · rw [if_pos h1]; exact StepRel.refl d points st
  · rw [if_neg h1]
    set nr := st.1.take i ++ (((st.1.drop i).take (j - i)).reverse ++ st.1.drop j)
      with hnr
    by_cases h2 : route_distanceG d nr points < route_distanceG d st.1 points
    · rw [if_pos h2]
      exact Or.inr ⟨h2, rfl, newRoute_perm st.1 i j (le_of_lt hij),
        newRoute_head st.1 i j hi, newRoute_last st.1 i j hj⟩
    · rw [if_neg h2]; exact StepRel.refl d points st

lemma StepRel.length_eq {d : α → α → K} {points : List α}
    {s t : List ℕ × Bool} (h : StepRel d points s t) :
    t.1.length = s.1.length := by
  rcases h with rfl | ⟨_, _, hp, _, _⟩
  · rfl
  · exact hp.length_eq

lemma twoOptInner_rel (d : α → α → K) (points : List α) (i : ℕ) (hi : 1 ≤ i) :
    ∀ (js : List ℕ) (st : List ℕ × Bool),
      (∀ j ∈ js, i < j ∧ j < st.1.length) →
      StepRel d points st
        (js.foldl (fun st2 j => twoOptStep d points st2 i j) st) := by
  intro js
  induction js with
  | nil => intro st _; exact StepRel.refl d points st
  | cons j js ih =>
    intro st hjs
    have hj := hjs j (List.mem_cons_self j js)
    have hstep : StepRel d points st (twoOptStep d points st i j) :=
      twoOptStep_rel d points st i j hi hj.1 hj.2
    simp only [List.foldl_cons]
    refine hstep.trans (ih _ ?_)
    intro j' hj'
    have := hjs j' (List.mem_cons_of_mem _ hj')
    rw [hstep.length_eq]
    exact this

lemma twoOptOuter_rel (d : α → α → K) (points : List α) :
    ∀ (is : List ℕ) (st : List ℕ × Bool), (∀ i ∈ is, 1 ≤ i) →
      StepRel d points st
        (is.foldl (fun st i =>
          (List.range' (i + 1) (st.1.length - (i + 1))).foldl
            (fun st2 j => twoOptStep d points st2 i j) st) st) := by
  intro is
  induction is with
  | nil => intro st _; exact StepRel.refl d points st
  | cons i is ih =>
    intro st his
    have hi : 1 ≤ i := his i (List.mem_cons_self i is)
    simp only [List.foldl_cons]
    have hinner : StepRel d points st
        ((List.range' (i + 1) (st.1.length - (i + 1))).foldl
          (fun st2 j => twoOptStep d points st2 i j) st) := by
      apply twoOptInner_rel d points i hi
      intro j hj
      rw [List.mem_range'] at hj
      obtain ⟨k, hk, rfl⟩ := hj
      constructor
      · omega
      · omega
    refine hinner.trans (ih _ ?_)
    intro i' hi'
    exact his i' (List.mem_cons_of_mem _ hi')

lemma twoOptPass_rel (d : α → α → K) (points : List α) (best : List ℕ) :
    StepRel d points (best, false) (twoOptPass d points best) := by
  unfold twoOptPass
  apply twoOptOuter_rel
  intro i hi
  rw [List.mem_range'] at hi
  obtain ⟨k, hk, rfl⟩ := hi
  omega

lemma twoOptPass_perm (d : α → α → K) (points : List α) (best : List ℕ) :
    (twoOptPass d points best).1 ~ best := by
  rcases twoOptPass_rel d points best with h | ⟨_, _, hp, _, _⟩
  · rw [h]
  · exact hp

lemma twoOptPass_le (d : α → α → K) (points : List α) (best : List ℕ) :
    route_distanceG d (twoOptPass d points best).1 points ≤
      route_distanceG d best points := by
  rcases twoOptPass_rel d points best with h | ⟨hd, _, _, _, _⟩
  · rw [h]
  · exact le_of_lt hd

lemma twoOptPass_head (d : α → α → K) (points : List α) (best : List ℕ) :
    (twoOptPass d points best).1.head? = best.head? := by
  rcases twoOptPass_rel d points best with h | ⟨_, _, _, hh, _⟩
  · rw [h]
  · exact hh

lemma twoOptPass_last (d : α → α → K) (points : List α) (best : List ℕ) :
    (twoOptPass d points best).1.getLast? = best.getLast? := by
  rcases twoOptPass_rel d points best with h | ⟨_, _, _, _, hl⟩
  · rw [h]
  · exact hl

lemma twoOptPass_lt (d : α → α → K) (points : List α) (best : List ℕ)
    (h : (twoOptPass d points best).2 = true) :
    route_distanceG d (twoOptPass d points best).1 points <
      route_distanceG d best points := by
  rcases twoOptPass_rel d points best with h' | ⟨hd, _, _, _, _⟩
  · rw [h'] at h; simp at h
  · exact hd

lemma twoOptPass_of_flag_false (d : α → α → K) (points : List α)
    (best : List ℕ) (h : (twoOptPass d points best).2 = false) :
    (twoOptPass d points best).1 = best := by
  rcases twoOptPass_rel d points best with h' | ⟨_, hb, _, _, _⟩
  · rw [h']
  · rw [hb] at h; simp at h

/-- Termination measure for the `while improved:` loop: the number of
rearrangements of `best` that are strictly shorter than `best`. -/
def twoOptMeasure (d : α → α → K) (points : List α) (best : List ℕ) : ℕ :=
  best.permutations.countP
    (fun l => decide (route_distanceG d l points < route_distanceG d best points))

lemma countP_lt_of_witness {β : Type*} {p q : β → Bool} :
    ∀ {l : List β}, (∀ a ∈ l, p a = true → q a = true) →
      ∀ {x : β}, x ∈ l → q x = true → p x = false →
      l.countP p < l.countP q := by
  intro l
  induction l with
  | nil => intro _ x hx; simp at hx
  | cons a l ih =>
    intro hpq x hx hqx hpx
    rcases List.mem_cons.1 hx with rfl | hx'
    · rw [List.countP_cons, List.countP_cons, hpx, hqx]
      simp only [if_false, if_true, Bool.false_eq_true]
      have hmono : l.countP p ≤ l.countP q :=
        List.countP_mono_left (fun a ha => hpq a (List.mem_cons_of_mem _ ha))
      omega
    · rw [List.countP_cons, List.countP_cons]
      have hlt : l.countP p < l.countP q :=
        ih (fun a ha => hpq a (List.mem_cons_of_mem _ ha)) hx' hqx hpx
      have hpa : (if p a = true then 1 else 0) ≤ (if q a = true then 1 else 0) := by
        by_cases h : p a = true
        · rw [if_pos h, if_pos (hpq a (List.mem_cons_self a l) h)]
        · rw [if_neg h]; omega
      omega

lemma twoOptMeasure_lt (d : α → α → K) (points : List α) {best b' : List ℕ}
    (hperm : b' ~ best)
    (hlt : route_distanceG d b' points < route_distanceG d best points) :
    twoOptMeasure d points b' < twoOptMeasure d points best := by
  unfold twoOptMeasure
  have hpermutations : b'.permutations ~ best.permutations :=
    hperm.permutations
  rw [hpermutations.countP_eq]
  apply countP_lt_of_witness
  · intro a _ ha
    rw [decide_eq_true_iff] at ha ⊢
    exact lt_trans ha hlt
  · exact List.mem_permutations.2 hperm
  · rw [decide_eq_true_iff]; exact hlt
  · rw [decide_eq_false_iff_not]; exact lt_irrefl _

/-- The source's `while improved:` loop: run a full pass; repeat while the
pass improved, otherwise return the pass result. Terminates because an
improving pass strictly decreases total length over the finite set of
rearrangements of the tour. -/
def two_optLoop (d : α → α → K) (points : List α) (best : List ℕ) : List ℕ :=
  if h : (twoOptPass d points best).2 then
    two_optLoop d points (twoOptPass d points best).1
  else (twoOptPass d points best).1
termination_by twoOptMeasure d points best
decreasing_by
  exact twoOptMeasure_lt d points (twoOptPass_perm d points best)
    (twoOptPass_lt d points best h)

/-- `two_opt(route, points)` from the source, generic in the distance
function: `best = route` then the `while improved:` loop. -/
def two_optG (d : α → α → K) (route : List ℕ) (points : List α) : List ℕ :=
  two_optLoop d points route

lemma two_optLoop_spec (d : α → α → K) (points : List α) :
    ∀ (N : ℕ) (best : List ℕ), twoOptMeasure d points best ≤ N →
      route_distanceG d (two_optLoop d points best) points ≤
          route_distanceG d best points ∧
        (two_optLoop d points best).head? = best.head? ∧
        (two_optLoop d points best).getLast? = best.getLast? ∧
        (two_optLoop d points best) ~ best ∧
        twoOptPass d points (two_optLoop d points best) =
          (two_optLoop d points best, false) := by
  intro N
  induction N with
  | zero =>
    intro best hN
    rw [two_optLoop]
    by_cases h : (twoOptPass d points best).2
    · exfalso
      have := twoOptMeasure_lt d points (twoOptPass_perm d points best)
        (twoOptPass_lt d points best h)
      omega
    · rw [dif_neg h]
      have heq : (twoOptPass d points best).1 = best :=
        twoOptPass_of_flag_false d points best (by simpa using h)
      rw [heq]
      refine ⟨le_refl _, rfl, rfl, List.Perm.refl _, ?_⟩
      have h2 : (twoOptPass d points best).2 = false := by simpa using h
      calc twoOptPass d points best
          = ((twoOptPass d points best).1, (twoOptPass d points best).2) := rfl
        _ = (best, false) := by rw [heq, h2]
  | succ N ih =>
    intro best hN
    rw [two_optLoop]
    by_cases h : (twoOptPass d points best).2
    · rw [dif_pos h]
      have hlt := twoOptMeasure_lt d points (twoOptPass_perm d points best)
        (twoOptPass_lt d points best h)
      have hle : twoOptMeasure d points (twoOptPass d points best).1 ≤ N := by
        omega
      obtain ⟨ih1, ih2, ih3, ih4, ih5⟩ := ih (twoOptPass d points best).1 hle
      refine ⟨?_, ?_, ?_, ?_, ih5⟩
      · exact le_trans ih1 (twoOptPass_le d points best)
      · exact ih2.trans (twoOptPass_head d points best)
      · exact ih3.trans (twoOptPass_last d points best)
      · exact ih4.trans (twoOptPass_perm d points best)
    · rw [dif_neg h]
      have heq : (twoOptPass d points best).1 = best :=
        twoOptPass_of_flag_false d points best (by simpa using h)
      rw [heq]
      refine ⟨le_refl _, rfl, rfl, List.Perm.refl _, ?_⟩
      have h2 : (twoOptPass d points best).2 = false := by simpa using h
      calc twoOptPass d points best
          = ((twoOptPass d points best).1, (twoOptPass d points best).2) := rfl
        _ = (best, false) := by rw [heq, h2]

lemma two_optG_le (d : α → α → K) (route : List ℕ) (points : List α) :
    route_distanceG d (two_optG d route points) points ≤
      route_distanceG d route points :=
  (two_optLoop_spec d points _ route (le_refl _)).1

lemma two_optG_head (d : α → α → K) (route : List ℕ) (points : List α) :
    (two_optG d route points).head? = route.head? :=
  (two_optLoop_spec d points _ route (le_refl _)).2.1

lemma two_optG_last (d : α → α → K) (route : List ℕ) (points : List α) :
    (two_optG d route points).getLast? = route.getLast? :=
  (two_optLoop_spec d points _ route (le_refl _)).2.2.1

lemma two_optG_fixpoint (d : α → α → K) (route : List ℕ) (points : List α) :
    two_optG d (two_optG d route points) points = two_optG d route points := by
  have hfix := (two_optLoop_spec d points _ route (le_refl _)).2.2.2.2
  unfold two_optG
  rw [two_optLoop]
  rw [hfix]
  simp

lemma twoOptPass_short (d : α → α → K) (points : List α) (best : List ℕ)
    (h : best.length ≤ 3) : twoOptPass d points best = (best, false) := by
  unfold twoOptPass
  have : best.length - 3 = 0 := by omega
  rw [this]
  rfl

lemma two_optG_short (d : α → α → K) (route : List ℕ) (points : List α)
    (h : route.length ≤ 3) : two_optG d route points = route := by
  unfold two_optG
  rw [two_optLoop, twoOptPass_short d points route h]
  simp

lemma nnLoop_spec (d : α → α → K) (points : List α) :
    ∀ (n : ℕ) (current : ℕ) (unvisited path : List ℕ),
      unvisited.length ≤ n →
      ∃ rest, nnLoop d points current unvisited path = path ++ rest ∧
        rest ~ unvisited := by
  intro n
  induction n with
  | zero =>
    intro current unvisited path hn
    have : unvisited = [] := List.eq_nil_of_length_eq_zero (by omega)
    subst this
    rw [nnLoop]
    exact ⟨[], by simp, List.Perm.refl _⟩
  | succ n ih =>
    intro current unvisited path hn
    rw [nnLoop]
    by_cases h : unvisited = []
    · rw [dif_pos h]
      exact ⟨[], by simp, h ▸ List.Perm.refl _⟩
    · rw [dif_neg h]
      have hm : nnNext d points current unvisited ∈ unvisited :=
        nnNext_mem _ _ _ _ h
      have hlen : (unvisited.erase (nnNext d points current unvisited)).length ≤ n := by
        rw [List.length_erase_of_mem hm]
        have : 0 < unvisited.length := List.length_pos.2 h
        omega
      obtain ⟨rest, heq, hperm⟩ := ih (nnNext d points current unvisited)
        (unvisited.erase (nnNext d points current unvisited))
        (path ++ [nnNext d points current unvisited]) hlen
      refine ⟨nnNext d points current unvisited :: rest, ?_, ?_⟩
      · rw [heq, List.append_assoc]
        rfl
      · exact ((hperm.cons _).trans (List.perm_cons_erase hm).symm)

lemma nearest_neighborG_spec (d : α → α → K) (points : List α)
    (start_index : ℕ) (h : start_index < points.length) :
    nearest_neighborG d points start_index ~ List.range points.length ∧
      (nearest_neighborG d points start_index).head? = some start_index := by
  obtain ⟨rest, heq, hperm⟩ := nnLoop_spec d points
    ((List.range points.length).erase start_index).length start_index
    ((List.range points.length).erase start_index) [start_index] (le_refl _)
  unfold nearest_neighborG
  rw [heq]
  constructor
  · have hmem : start_index ∈ List.range points.length := List.mem_range.2 h
    calc [start_index] ++ rest ~
        [start_index] ++ (List.range points.length).erase start_index :=
          List.Perm.append_left _ hperm
      _ ~ List.range points.length := (List.perm_cons_erase hmem).symm
  · rfl

end Generic

/-- `route_distance(route, points)` from the source: total length of a route
through `points` under `haversine`. -/
noncomputable def route_distance (route : List ℕ) (points : List (ℝ × ℝ)) : ℝ :=
  route_distanceG haversine route points

/-- `nearest_neighbor(points, start_index)` from the source. -/
noncomputable def nearest_neighbor (points : List (ℝ × ℝ))
    (start_index : ℕ) : List ℕ :=
  nearest_neighborG haversine points start_index

/-- `two_opt(route, points)` from the source. -/
noncomputable def two_opt (route : List ℕ) (points : List (ℝ × ℝ)) : List ℕ :=
  two_optG haversine route points

/-- The semantic content of one Google-Maps directions link built by
`build_maps_links`: the origin, destination and waypoint coordinates that
the URL string interpolates (the spec's Navigation Descriptor). -/
structure NavDescriptor (α : Type*) where
  origin : α
  destination : α
  waypoints : List α
deriving DecidableEq, Repr

/-- The body of the `for idx in range(0, len(points), chunk_size)` loop of
`build_maps_links`, applied to one chunk `points[idx:idx+chunk_size]`:
origin is `chunk[0]`, destination is `chunk[-1]`, and the waypoints are
`chunk[1:-1]` when the chunk has more than two coordinates, else empty. -/
def chunkDescriptor {α : Type*} [Inhabited α] (chunk : List α) : NavDescriptor α :=
  ⟨chunk.headD default, chunk.getLastD default,
    if 2 < chunk.length then (chunk.drop 1).dropLast else []⟩

/-- `build_maps_links(points)` from the source, at the Navigation Descriptor
level of abstraction: chunk `points` into consecutive slices
`points[idx:idx+10]` for `idx = 0, 10, 20, ...` (`chunk_size = 10` in the
source) and produce one descriptor per chunk. -/
def build_maps_links {α : Type*} [Inhabited α] (points : List α) :
    List (NavDescriptor α) :=
  (List.range' 0 ((points.length + 9) / 10) 10).map
    (fun idx => chunkDescriptor ((points.drop idx).take 10))

section BuildMapsLinks

variable {α : Type*} [Inhabited α]

lemma build_maps_links_nil : build_maps_links ([] : List α) = [] := by
  simp [build_maps_links]

lemma build_maps_links_cons (points : List α) (h : points ≠ []) :
    build_maps_links points =
      chunkDescriptor (points.take 10) :: build_maps_links (points.drop 10) := by
  unfold build_maps_links
  have hlen : 0 < points.length := List.length_pos.2 h
  have hcount : (points.length + 9) / 10 = ((points.drop 10).length + 9) / 10 + 1 := by
    rw [List.length_drop]
    omega
  rw [hcount, List.range'_succ, List.map_cons, List.drop_zero]
  congr 1
  · have hshift : List.range' (0 + 10) (((points.drop 10).length + 9) / 10) 10 =
        (List.range' 0 (((points.drop 10).length + 9) / 10) 10).map (10 + ·) :=
      (List.map_add_range' 10 0 _ 10).symm
    rw [show (0 + 10 : ℕ) = 10 from rfl] at hshift
    rw [hshift, List.map_map]
    apply List.map_congr_left
    intro idx _
    simp only [Function.comp_apply]
    rw [List.drop_drop]

lemma build_maps_links_ne_nil (points : List α) (h : points ≠ []) :
    build_maps_links points ≠ [] := by
  rw [build_maps_links_cons points h]
  exact List.cons_ne_nil _ _

lemma build_maps_links_length (points : List α) :
    (build_maps_links points).length = (points.length + 9) / 10 := by
  unfold build_maps_links
  rw [List.length_map, List.length_range']

/-- Flattening one descriptor back to its coordinates: origin, waypoints,
destination in order. For a chunk of at least two coordinates this is
exactly the chunk. -/
lemma chunkDescriptor_flatten (chunk : List α) (h : 2 ≤ chunk.length) :
    (chunkDescriptor chunk).origin ::
      ((chunkDescriptor chunk).waypoints ++ [(chunkDescriptor chunk).destination]) =
      chunk := by
  cases chunk with
  | nil => simp at h
  | cons a l =>
    have hl : l ≠ [] := by
      intro hcon
      rw [hcon] at h
      simp at h
    unfold chunkDescriptor
    simp only [List.headD_cons, List.drop_one, List.tail_cons]
    have hlast : (a :: l).getLastD default = l.getLast hl := by
      rw [List.getLastD_eq_getLast?, List.getLast?_cons,
        List.getLast?_eq_getLast l hl]
      rfl
    by_cases h2 : 2 < (a :: l).length
    · rw [if_pos h2, hlast]
      congr 1
      exact List.dropLast_append_getLast hl
    · have hlen1 : l.length = 1 := by
        simp only [List.length_cons] at h2 h
        omega
      obtain ⟨b, rfl⟩ : ∃ b, l = [b] := by
        cases l with
        | nil => simp at hlen1
        | cons b l' =>
          cases l' with
          | nil => exact ⟨b, rfl⟩
          | cons c l'' => simp at hlen1
      rw [if_neg h2, hlast]
      rfl

/-- Exact reconstruction: when no chunk is a singleton (`n % 10 ≠ 1`),
flattening every descriptor back to coordinates gives the original sequence,
with no duplication at chunk boundaries. -/
lemma build_maps_links_flatten :
    ∀ (n : ℕ) (points : List α), points.length ≤ n → points.length % 10 ≠ 1 →
      ((build_maps_links points).map
        (fun dsc => dsc.origin :: (dsc.waypoints ++ [dsc.destination]))).flatten =
        points := by
  intro n
  induction n with
  | zero =>
    intro points hn _
    have : points = [] := List.eq_nil_of_length_eq_zero (by omega)
    subst this
    simp [build_maps_links_nil]
  | succ n ih =>
    intro points hn hmod
    by_cases h : points = []
    · subst h; simp [build_maps_links_nil]
    · have hlen : 0 < points.length := List.length_pos.2 h
      have hlen2 : 2 ≤ points.length := by omega
      rw [build_maps_links_cons points h, List.map_cons, List.flatten_cons]
      have hchunk : 2 ≤ (points.take 10).length := by
        rw [List.length_take]
        omega
      rw [chunkDescriptor_flatten _ hchunk]
      have hdroplen : (points.drop 10).length = points.length - 10 :=
        List.length_drop _ _
      rw [ih (points.drop 10) (by omega) (by omega)]
      exact List.take_append_drop 10 points

/-- When the final chunk is a singleton (`n % 10 = 1`), the final descriptor
is the degenerate one: origin = destination = the final coordinate, and no
waypoints. -/
lemma build_maps_links_last_singleton :
    ∀ (n : ℕ) (points : List α), points.length ≤ n → points.length % 10 = 1 →
      (build_maps_links points).getLast? =
        some ⟨points.getLastD default, points.getLastD default, []⟩ := by
  intro n
  induction n with
  | zero =>
    intro points hn hmod
    have : points = [] := List.eq_nil_of_length_eq_zero (by omega)
    subst this
    simp at hmod
  | succ n ih =>
    intro points hn hmod
    have hne : points ≠ [] := by
      intro hcon
      subst hcon
      simp at hmod
    rw [build_maps_links_cons points hne]
    by_cases h10 : points.length ≤ 10
    · have hlen1 : points.length = 1 := by omega
      obtain ⟨a, rfl⟩ : ∃ a, points = [a] := by
        cases points with
        | nil => simp at hlen1
        | cons a l =>
          cases l with
          | nil => exact ⟨a, rfl⟩
          | cons b l' => simp at hlen1
      simp [build_maps_links_nil, chunkDescriptor]
    · have hdroplen : (points.drop 10).length = points.length - 10 :=
        List.length_drop _ _
      have hdropne : points.drop 10 ≠ [] := by
        intro hcon
        rw [hcon] at hdroplen
        simp at hdroplen
        omega
      have hrec := ih (points.drop 10) (by omega) (by omega)
      rw [List.getLast?_cons, hrec]
      have hdropq : (points.drop 10).getLast? = points.getLast? :=
        getLast?_drop_of_lt points 10 (by omega)
      simp [hdropq]

end BuildMapsLinks

section HaversineAnalysis

lemma atan2_of_pos {y x : ℝ} (hx : 0 < x) : atan2 y x = Real.arctan (y / x) := by
  unfold atan2
  rw [if_pos hx]

lemma arctan_nonneg {x : ℝ} (hx : 0 ≤ x) : 0 ≤ Real.arctan x := by
  have := Real.arctan_strictMono.monotone hx
  rwa [Real.arctan_zero] at this

lemma arctan_pos {x : ℝ} (hx : 0 < x) : 0 < Real.arctan x := by
  have := Real.arctan_strictMono hx
  rwa [Real.arctan_zero] at this

lemma atan2_nonneg {y x : ℝ} (hy : 0 ≤ y) : 0 ≤ atan2 y x := by
  unfold atan2
  by_cases hx : 0 < x
  · rw [if_pos hx]
    exact arctan_nonneg (div_nonneg hy (le_of_lt hx))
  · rw [if_neg hx]
    by_cases hx' : x < 0
    · rw [if_pos hx', if_pos hy]
      have h1 : -(Real.pi / 2) < Real.arctan (y / x) :=
        Real.neg_pi_div_two_lt_arctan _
      have h2 : 0 < Real.pi := Real.pi_pos
      linarith
    · rw [if_neg hx']
      by_cases hy' : 0 < y
      · rw [if_pos hy']
        have := Real.pi_pos
        linarith
      · rw [if_neg hy', if_neg (by linarith : ¬y < 0)]

/-- The spherical `a` term of `haversine`, as the source computes it. -/
noncomputable def havA (c1 c2 : ℝ × ℝ) : ℝ :=
  Real.sin (radians (c2.1 - c1.1) / 2) ^ 2 +
    Real.cos (radians c1.1) * Real.cos (radians c2.1) *
      Real.sin (radians (c2.2 - c1.2) / 2) ^ 2

/-- `haversine` as a function of the `a` term alone. -/
noncomputable def hv (a : ℝ) : ℝ :=
  2 * (6371.0 : ℝ) * atan2 (Real.sqrt a) (Real.sqrt (1 - a))

lemma haversine_eq_hv (c1 c2 : ℝ × ℝ) :
    haversine c1 c2 = hv (havA c1 c2) := rfl

lemma havA_comm (c1 c2 : ℝ × ℝ) : havA c1 c2 = havA c2 c1 := by
  unfold havA radians
  rw [show (c1.1 - c2.1) * Real.pi / 180 / 2 =
      -((c2.1 - c1.1) * Real.pi / 180 / 2) by ring,
    show (c1.2 - c2.2) * Real.pi / 180 / 2 =
      -((c2.2 - c1.2) * Real.pi / 180 / 2) by ring,
    Real.sin_neg, Real.sin_neg]
  ring

lemma havA_self (c : ℝ × ℝ) : havA c c = 0 := by
  unfold havA radians
  rw [sub_self, sub_self, zero_mul, zero_div, zero_div, Real.sin_zero]
  ring

lemma hv_zero : hv 0 = 0 := by
  unfold hv
  rw [Real.sqrt_zero, sub_zero, Real.sqrt_one, atan2_of_pos one_pos, div_one,
    Real.arctan_zero, mul_zero]

lemma hv_nonneg (a : ℝ) : 0 ≤ hv a := by
  unfold hv
  have h1 : 0 ≤ atan2 (Real.sqrt a) (Real.sqrt (1 - a)) :=
    atan2_nonneg (Real.sqrt_nonneg a)
  have h2 : (0 : ℝ) ≤ 2 * 6371.0 := by norm_num
  exact mul_nonneg h2 h1

lemma haversine_comm (c1 c2 : ℝ × ℝ) : haversine c1 c2 = haversine c2 c1 := by
  rw [haversine_eq_hv, haversine_eq_hv, havA_comm]

lemma haversine_self (c : ℝ × ℝ) : haversine c c = 0 := by
  rw [haversine_eq_hv, havA_self, hv_zero]

lemma haversine_nonneg (c1 c2 : ℝ × ℝ) : 0 ≤ haversine c1 c2 := by
  rw [haversine_eq_hv]
  exact hv_nonneg _

lemma arctan_le_self {x : ℝ} (hx : 0 ≤ x) : Real.arctan x ≤ x := by
  rcases eq_or_lt_of_le hx with h | h
  · rw [← h, Real.arctan_zero]
  · have h1 : 0 < Real.arctan x := arctan_pos h
    have h2 : Real.arctan x < Real.pi / 2 := Real.arctan_lt_pi_div_two x
    have h3 := Real.lt_tan h1 h2
    rw [Real.tan_arctan] at h3
    exact le_of_lt h3

lemma div_one_add_half_sq_le_arctan {x : ℝ} (hx : 0 ≤ x) :
    x / (1 + x ^ 2 / 2) ≤ Real.arctan x := by
  rcases eq_or_lt_of_le hx with h | h
  · rw [← h]
    simp [Real.arctan_zero]
  · have h1 : Real.sin (Real.arctan x) < Real.arctan x :=
      Real.sin_lt (arctan_pos h)
    rw [Real.sin_arctan] at h1
    have hsq : Real.sqrt (1 + x ^ 2) ≤ 1 + x ^ 2 / 2 := by
      rw [Real.sqrt_le_left (by positivity)]
      nlinarith [sq_nonneg (x ^ 2)]
    have h2 : x / (1 + x ^ 2 / 2) ≤ x / Real.sqrt (1 + x ^ 2) := by
      apply div_le_div_of_nonneg_left (le_of_lt h) _ hsq
      have : (0:ℝ) < 1 + x ^ 2 := by positivity
      exact Real.sqrt_pos.2 this
    exact le_trans h2 (le_of_lt h1)

lemma hv_strictMono {a b : ℝ} (ha : 0 ≤ a) (hab : a < b) (hb : b < 1) :
    hv a < hv b := by
  unfold hv
  have h1a : (0:ℝ) < 1 - a := by linarith
  have h1b : (0:ℝ) < 1 - b := by linarith
  rw [atan2_of_pos (Real.sqrt_pos.2 h1a), atan2_of_pos (Real.sqrt_pos.2 h1b)]
  have hq : Real.sqrt a / Real.sqrt (1 - a) < Real.sqrt b / Real.sqrt (1 - b) :=
    div_lt_div (Real.sqrt_lt_sqrt ha hab) (Real.sqrt_le_sqrt (by linarith))
      (Real.sqrt_nonneg b) (Real.sqrt_pos.2 h1b)
  have := Real.arctan_strictMono hq
  have hc : (0:ℝ) < 2 * 6371.0 := by norm_num
  exact mul_lt_mul_of_pos_left this hc

lemma hv_le_of_q_le {a q : ℝ} (ha1 : a < 1)
    (hq : Real.sqrt a / Real.sqrt (1 - a) ≤ q) :
    hv a ≤ 2 * (6371.0 : ℝ) * q := by
  unfold hv
  have h1a : (0:ℝ) < 1 - a := by linarith
  rw [atan2_of_pos (Real.sqrt_pos.2 h1a)]
  have hq0 : 0 ≤ Real.sqrt a / Real.sqrt (1 - a) :=
    div_nonneg (Real.sqrt_nonneg _) (Real.sqrt_nonneg _)
  have h2 : Real.arctan (Real.sqrt a / Real.sqrt (1 - a)) ≤ q :=
    le_trans (arctan_le_self hq0) hq
  have hc : (0:ℝ) ≤ 2 * 6371.0 := by norm_num
  exact mul_le_mul_of_nonneg_left h2 hc

lemma hv_ge_of_q_ge {a ql qu : ℝ} (ha1 : a < 1) (hql0 : 0 ≤ ql)
    (hql : ql ≤ Real.sqrt a / Real.sqrt (1 - a))
    (hqu : Real.sqrt a / Real.sqrt (1 - a) ≤ qu) :
    2 * (6371.0 : ℝ) * (ql / (1 + qu ^ 2 / 2)) ≤ hv a := by
  unfold hv
  have h1a : (0:ℝ) < 1 - a := by linarith
  rw [atan2_of_pos (Real.sqrt_pos.2 h1a)]
  set q := Real.sqrt a / Real.sqrt (1 - a) with hqdef
  have hq0 : 0 ≤ q := div_nonneg (Real.sqrt_nonneg _) (Real.sqrt_nonneg _)
  have step1 : ql / (1 + qu ^ 2 / 2) ≤ q / (1 + q ^ 2 / 2) := by
    have hd1 : (0:ℝ) < 1 + q ^ 2 / 2 := by positivity
    have hsq : q ^ 2 ≤ qu ^ 2 := by
      apply pow_le_pow_left hq0 hqu
    exact div_le_div hq0 hql hd1 (by linarith)
  have step2 : q / (1 + q ^ 2 / 2) ≤ Real.arctan q :=
    div_one_add_half_sq_le_arctan hq0
  have hc : (0:ℝ) ≤ 2 * 6371.0 := by norm_num
  exact mul_le_mul_of_nonneg_left (le_trans step1 step2) hc

/-- Bound `√a / √(1-a)` above by `n / m` from rational square bounds. -/
lemma q_le_of_bounds {a n m : ℝ} (hn : a ≤ n ^ 2) (hn0 : 0 ≤ n)
    (hm : m ^ 2 ≤ 1 - a) (hm0 : 0 < m) :
    Real.sqrt a / Real.sqrt (1 - a) ≤ n / m := by
  have hnum : Real.sqrt a ≤ n := (Real.sqrt_le_left hn0).2 hn
  have hden : m ≤ Real.sqrt (1 - a) := Real.le_sqrt_of_sq_le hm
  exact div_le_div hn0 hnum hm0 hden

/-- Bound `√a / √(1-a)` below by `l` from a rational square bound
(using `√(1-a) ≤ 1`). -/
lemma q_ge_of_bounds {a l : ℝ} (hl : l ^ 2 ≤ a) (hl0 : 0 ≤ l) (ha1 : a < 1) :
    l ≤ Real.sqrt a / Real.sqrt (1 - a) := by
  have hnum : l ≤ Real.sqrt a := Real.le_sqrt_of_sq_le hl
  have ha0 : 0 ≤ a := le_trans (sq_nonneg l) hl
  have hden : Real.sqrt (1 - a) ≤ 1 := by
    have h := Real.sqrt_le_sqrt (show (1:ℝ) - a ≤ 1 by linarith)
    rwa [Real.sqrt_one] at h
  have hden0 : 0 < Real.sqrt (1 - a) := Real.sqrt_pos.2 (by linarith)
  calc l = l / 1 := (div_one l).symm
    _ ≤ Real.sqrt a / Real.sqrt (1 - a) :=
        div_le_div (Real.sqrt_nonneg a) hnum hden0 hden

end HaversineAnalysis

section ConcreteScenario

lemma pi360_pos : (0:ℝ) < Real.pi / 360 := by positivity

lemma pi180_pos : (0:ℝ) < Real.pi / 180 := by positivity

lemma pi360_le_one : Real.pi / 360 ≤ 1 := by
  have := Real.pi_lt_3141593
  linarith

lemma pi180_le_one : Real.pi / 180 ≤ 1 := by
  have := Real.pi_lt_3141593
  linarith

lemma pi180_lt_half_pi : Real.pi / 180 < Real.pi / 2 := by
  have := Real.pi_pos
  linarith

lemma sin360_pos : 0 < Real.sin (Real.pi / 360) := by
  apply Real.sin_pos_of_pos_of_lt_pi pi360_pos
  have := Real.pi_pos
  linarith

lemma sin180_pos : 0 < Real.sin (Real.pi / 180) := by
  apply Real.sin_pos_of_pos_of_lt_pi pi180_pos
  have := Real.pi_pos
  linarith

lemma cos180_pos : 0 < Real.cos (Real.pi / 180) := by
  apply Real.cos_pos_of_mem_Ioo
  constructor
  · have := Real.pi_pos
    linarith
  · exact pi180_lt_half_pi

lemma cos180_le_one : Real.cos (Real.pi / 180) ≤ 1 := Real.cos_le_one _

lemma sin360_lt_sin180 :
    Real.sin (Real.pi / 360) < Real.sin (Real.pi / 180) := by
  have hpi := Real.pi_pos
  apply Real.strictMonoOn_sin
  · exact Set.mem_Icc.2 ⟨by linarith, by linarith⟩
  · exact Set.mem_Icc.2 ⟨by linarith, by linarith⟩
  · linarith

lemma sin360_ub : Real.sin (Real.pi / 360) ≤ 0.0087267 := by
  have h1 : Real.sin (Real.pi / 360) < Real.pi / 360 := Real.sin_lt pi360_pos
  have h2 := Real.pi_lt_3141593
  linarith

lemma sin360_lb : (0.0087264 : ℝ) ≤ Real.sin (Real.pi / 360) := by
  have h1 := Real.sin_gt_sub_cube pi360_pos pi360_le_one
  have h2 := Real.pi_gt_3141592
  have h3 : Real.pi / 360 ≤ 0.0087267 := by
    have := Real.pi_lt_3141593
    linarith
  have h4 : (Real.pi / 360) ^ 3 ≤ (0.0087267 : ℝ) ^ 3 :=
    pow_le_pow_left (le_of_lt pi360_pos) h3 3
  nlinarith

lemma sin180_ub : Real.sin (Real.pi / 180) ≤ 0.0174533 := by
  have h1 : Real.sin (Real.pi / 180) < Real.pi / 180 := Real.sin_lt pi180_pos
  have h2 := Real.pi_lt_3141593
  linarith

lemma sin180_lb : (0.0174519 : ℝ) ≤ Real.sin (Real.pi / 180) := by
  have h1 := Real.sin_gt_sub_cube pi180_pos pi180_le_one
  have h2 := Real.pi_gt_3141592
  have h3 : Real.pi / 180 ≤ 0.0174533 := by
    have := Real.pi_lt_3141593
    linarith
  have h4 : (Real.pi / 180) ^ 3 ≤ (0.0174533 : ℝ) ^ 3 :=
    pow_le_pow_left (le_of_lt pi180_pos) h3 3
  nlinarith

lemma cos180_eq : Real.cos (Real.pi / 180) =
    1 - 2 * Real.sin (Real.pi / 360) ^ 2 := by
  have h : (Real.pi : ℝ) / 180 = 2 * (Real.pi / 360) := by ring
  rw [h, Real.cos_two_mul]
  have hsc := Real.sin_sq_add_cos_sq (Real.pi / 360)
  linarith

lemma cos180_lb : (0.9998476 : ℝ) ≤ Real.cos (Real.pi / 180) := by
  rw [cos180_eq]
  have h1 := sin360_ub
  have h0 : 0 ≤ Real.sin (Real.pi / 360) := le_of_lt sin360_pos
  nlinarith

lemma havA_00_01 : havA (0, 0) (0, 1) = Real.sin (Real.pi / 360) ^ 2 := by
  unfold havA radians
  norm_num
  rw [show (Real.pi : ℝ) / 180 / 2 = Real.pi / 360 by ring]

lemma havA_01_02 : havA (0, 1) (0, 2) = Real.sin (Real.pi / 360) ^ 2 := by
  unfold havA radians
  norm_num
  rw [show (Real.pi : ℝ) / 180 / 2 = Real.pi / 360 by ring]

lemma havA_00_10 : havA (0, 0) (1, 0) = Real.sin (Real.pi / 360) ^ 2 := by
  unfold havA radians
  norm_num
  rw [show (Real.pi : ℝ) / 180 / 2 = Real.pi / 360 by ring]

lemma havA_00_02 : havA (0, 0) (0, 2) = Real.sin (Real.pi / 180) ^ 2 := by
  unfold havA radians
  norm_num
  rw [show (2 : ℝ) * Real.pi / 180 / 2 = Real.pi / 180 by ring]

lemma havA_02_01 : havA (0, 2) (0, 1) = Real.sin (Real.pi / 360) ^ 2 := by
  unfold havA radians
  norm_num
  rw [show (-Real.pi) / 180 / 2 = -(Real.pi / 360) by ring, Real.sin_neg]
  ring

lemma havA_01_10 : havA (0, 1) (1, 0) =
    Real.sin (Real.pi / 360) ^ 2 +
      Real.cos (Real.pi / 180) * Real.sin (Real.pi / 360) ^ 2 := by
  unfold havA radians
  norm_num
  rw [show (Real.pi : ℝ) / 180 / 2 = Real.pi / 360 by ring,
    show (-Real.pi) / 180 / 2 = -(Real.pi / 360) by ring, Real.sin_neg]
  ring

lemma havA_02_10 : havA (0, 2) (1, 0) =
    Real.sin (Real.pi / 360) ^ 2 +
      Real.cos (Real.pi / 180) * Real.sin (Real.pi / 180) ^ 2 := by
  unfold havA radians
  norm_num
  rw [show (Real.pi : ℝ) / 180 / 2 = Real.pi / 360 by ring,
    show (-(2 * Real.pi)) / 180 / 2 = -(Real.pi / 180) by ring, Real.sin_neg]
  ring

lemma aA_nonneg : (0:ℝ) ≤ Real.sin (Real.pi / 360) ^ 2 := sq_nonneg _

lemma aA_ub : Real.sin (Real.pi / 360) ^ 2 ≤ (0.0087267 : ℝ) ^ 2 :=
  pow_le_pow_left (le_of_lt sin360_pos) sin360_ub 2

lemma aC_lb : (0.0174519 : ℝ) ^ 2 ≤ Real.sin (Real.pi / 180) ^ 2 :=
  pow_le_pow_left (by norm_num) sin180_lb 2

lemma aC_ub : Real.sin (Real.pi / 180) ^ 2 ≤ (0.0174533 : ℝ) ^ 2 :=
  pow_le_pow_left (le_of_lt sin180_pos) sin180_ub 2

lemma aA_lt_aC : Real.sin (Real.pi / 360) ^ 2 < Real.sin (Real.pi / 180) ^ 2 :=
  pow_lt_pow_left sin360_lt_sin180 (le_of_lt sin360_pos) (by norm_num)

lemma aC_lt_one : Real.sin (Real.pi / 180) ^ 2 < 1 := by
  have := aC_ub
  nlinarith

/-- `a` value of the pair `(0,1)-(1,0)`. -/
noncomputable def aD : ℝ :=
  Real.sin (Real.pi / 360) ^ 2 +
    Real.cos (Real.pi / 180) * Real.sin (Real.pi / 360) ^ 2

/-- `a` value of the pair `(0,2)-(1,0)`. -/
noncomputable def aB : ℝ :=
  Real.sin (Real.pi / 360) ^ 2 +
    Real.cos (Real.pi / 180) * Real.sin (Real.pi / 180) ^ 2

lemma aA_lt_aD : Real.sin (Real.pi / 360) ^ 2 < aD := by
  unfold aD
  have h1 : 0 < Real.cos (Real.pi / 180) * Real.sin (Real.pi / 360) ^ 2 :=
    mul_pos cos180_pos (pow_pos sin360_pos 2)
  linarith

lemma aD_lb : (0.0123405 : ℝ) ^ 2 ≤ aD := by
  unfold aD
  have h1 : (0.0087264 : ℝ) ^ 2 ≤ Real.sin (Real.pi / 360) ^ 2 :=
    pow_le_pow_left (by norm_num) sin360_lb 2
  have h2 : (0.9998476 : ℝ) * (0.0087264 : ℝ) ^ 2 ≤
      Real.cos (Real.pi / 180) * Real.sin (Real.pi / 360) ^ 2 :=
    mul_le_mul cos180_lb h1 (by norm_num) (le_of_lt cos180_pos)
  nlinarith

lemma aD_ub : aD ≤ (0.0123415 : ℝ) ^ 2 := by
  unfold aD
  have h1 := aA_ub
  have h2 : Real.cos (Real.pi / 180) * Real.sin (Real.pi / 360) ^ 2 ≤
      Real.sin (Real.pi / 360) ^ 2 :=
    mul_le_of_le_one_left (sq_nonneg _) cos180_le_one
  nlinarith

lemma aD_lt_one : aD < 1 := by
  have := aD_ub
  nlinarith

lemma aB_ub : aB ≤ (0.0195135 : ℝ) ^ 2 := by
  unfold aB
  have h1 := aA_ub
  have h2 : Real.cos (Real.pi / 180) * Real.sin (Real.pi / 180) ^ 2 ≤
      Real.sin (Real.pi / 180) ^ 2 :=
    mul_le_of_le_one_left (sq_nonneg _) cos180_le_one
  have h3 := aC_ub
  nlinarith

lemma aB_lt_one : aB < 1 := by
  have := aB_ub
  nlinarith

/-- Upper bound on the first leg `(0,0)-(0,1)`. -/
lemma hvA_ub : hv (Real.sin (Real.pi / 360) ^ 2) ≤
    2 * (6371.0 : ℝ) * (0.0087267 / 0.9999) := by
  apply hv_le_of_q_le (by nlinarith [aA_ub])
  apply q_le_of_bounds aA_ub (by norm_num)
  · nlinarith [aA_ub]
  · norm_num

/-- Upper bound on the leg `(0,2)-(1,0)`. -/
lemma hvB_ub : hv aB ≤ 2 * (6371.0 : ℝ) * (0.0195135 / 0.9998) := by
  apply hv_le_of_q_le aB_lt_one
  apply q_le_of_bounds aB_ub (by norm_num)
  · nlinarith [aB_ub]
  · norm_num

/-- Lower bound on the leg `(0,0)-(0,2)`. -/
lemma hvC_lb : 2 * (6371.0 : ℝ) *
    (0.0174519 / (1 + (0.0174533 / 0.9998) ^ 2 / 2)) ≤
    hv (Real.sin (Real.pi / 180) ^ 2) := by
  apply hv_ge_of_q_ge aC_lt_one (by norm_num)
  · exact q_ge_of_bounds aC_lb (by norm_num) aC_lt_one
  · apply q_le_of_bounds aC_ub (by norm_num)
    · nlinarith [aC_ub]
    · norm_num

/-- Lower bound on the leg `(0,1)-(1,0)`. -/
lemma hvD_lb : 2 * (6371.0 : ℝ) *
    (0.0123405 / (1 + (0.0123415 / 0.9999) ^ 2 / 2)) ≤ hv aD := by
  apply hv_ge_of_q_ge aD_lt_one (by norm_num)
  · exact q_ge_of_bounds aD_lb (by norm_num) aD_lt_one
  · apply q_le_of_bounds aD_ub (by norm_num)
    · nlinarith [aD_ub]
    · norm_num

/-- The 2-opt candidate `[0,2,1,3]` is no shorter than `[0,1,2,3]` on the
demo point set: `hav(p0,p1) + hav(p2,p3) ≤ hav(p0,p2) + hav(p1,p3)`. -/
lemma hv_key_inequality :
    hv (Real.sin (Real.pi / 360) ^ 2) + hv aB ≤
      hv (Real.sin (Real.pi / 180) ^ 2) + hv aD := by
  have h1 := hvA_ub
  have h2 := hvB_ub
  have h3 := hvC_lb
  have h4 := hvD_lb
  have hnum : 2 * (6371.0 : ℝ) * (0.0087267 / 0.9999) +
      2 * (6371.0 : ℝ) * (0.0195135 / 0.9998) ≤
      2 * (6371.0 : ℝ) * (0.0174519 / (1 + (0.0174533 / 0.9998) ^ 2 / 2)) +
      2 * (6371.0 : ℝ) * (0.0123405 / (1 + (0.0123415 / 0.9999) ^ 2 / 2)) := by
    norm_num
  linarith

/-- The demo Point Set of spec §8: depot `(0,0)`, then `(0,1)`, `(0,2)`,
`(1,0)`. -/
def demoPoints : List (ℝ × ℝ) := [(0, 0), (0, 1), (0, 2), (1, 0)]

lemma hav_00_01_lt_00_02 : haversine (0, 0) (0, 1) < haversine (0, 0) (0, 2) := by
  rw [haversine_eq_hv, haversine_eq_hv, havA_00_01, havA_00_02]
  exact hv_strictMono aA_nonneg aA_lt_aC aC_lt_one

lemma hav_00_10_eq_00_01 : haversine (0, 0) (1, 0) = haversine (0, 0) (0, 1) := by
  rw [haversine_eq_hv, haversine_eq_hv, havA_00_01, havA_00_10]

lemma hav_01_02_lt_01_10 : haversine (0, 1) (0, 2) < haversine (0, 1) (1, 0) := by
  rw [haversine_eq_hv, haversine_eq_hv, havA_01_02, havA_01_10]
  exact hv_strictMono aA_nonneg aA_lt_aD aD_lt_one

lemma hav_02_01_eq_01_02 : haversine (0, 2) (0, 1) = haversine (0, 1) (0, 2) := by
  rw [haversine_eq_hv, haversine_eq_hv, havA_02_01, havA_01_02]

/-- Total length of `[0,1,2,3]` is at most that of the only non-trivial
2-opt candidate `[0,2,1,3]` on the demo points. -/
lemma demo_dist_le :
    route_distanceG haversine ([0, 1, 2, 3] : List ℕ) demoPoints ≤
      route_distanceG haversine ([0, 2, 1, 3] : List ℕ) demoPoints := by
  show route_distanceG haversine [0, 1, 2, 3] demoPoints ≤
    route_distanceG haversine [0, 2, 1, 3] demoPoints
  unfold route_distanceG demoPoints
  norm_num [List.range_succ]
  show haversine (0, 0) (0, 1) + (haversine (0, 1) (0, 2) + haversine (0, 2) (1, 0)) ≤
    haversine (0, 0) (0, 2) + (haversine (0, 2) (0, 1) + haversine (0, 1) (1, 0))
  rw [haversine_eq_hv (0, 0) (0, 1), haversine_eq_hv (0, 1) (0, 2),
    haversine_eq_hv (0, 2) (1, 0), haversine_eq_hv (0, 0) (0, 2),
    haversine_eq_hv (0, 2) (0, 1), haversine_eq_hv (0, 1) (1, 0),
    havA_00_01, havA_01_02, havA_02_10, havA_00_02, havA_02_01, havA_01_10]
  have h := hv_key_inequality
  rw [show aB = Real.sin (Real.pi / 360) ^ 2 +
      Real.cos (Real.pi / 180) * Real.sin (Real.pi / 180) ^ 2 from rfl,
    show aD = Real.sin (Real.pi / 360) ^ 2 +
      Real.cos (Real.pi / 180) * Real.sin (Real.pi / 360) ^ 2 from rfl] at h
  linarith

lemma twoOptStep_skip {α : Type*} [Inhabited α] {K : Type*}
    [LinearOrderedField K] (d : α → α → K) (points : List α)
    (st : List ℕ × Bool) (i j : ℕ) (h : j - i = 1) :
    twoOptStep d points st i j = st := by
  unfold twoOptStep
  rw [if_pos h]

lemma twoOptStep_keep {α : Type*} [Inhabited α] {K : Type*}
    [LinearOrderedField K] (d : α → α → K) (points : List α)
    (st : List ℕ × Bool) (i j : ℕ) (h : j - i ≠ 1)
    (h2 : ¬ (route_distanceG d
        (st.1.take i ++ (((st.1.drop i).take (j - i)).reverse ++ st.1.drop j))
        points < route_distanceG d st.1 points)) :
    twoOptStep d points st i j = st := by
  unfold twoOptStep
  rw [if_neg h]
  exact if_neg h2

lemma demo_pass :
    twoOptPass haversine demoPoints ([0, 1, 2, 3] : List ℕ) =
      (([0, 1, 2, 3] : List ℕ), false) := by
  have e1 : twoOptPass haversine demoPoints ([0, 1, 2, 3] : List ℕ) =
      twoOptStep haversine demoPoints
        (twoOptStep haversine demoPoints (([0, 1, 2, 3] : List ℕ), false) 1 2)
        1 3 := rfl
  rw [e1, twoOptStep_skip haversine demoPoints _ 1 2 (by norm_num)]
  apply twoOptStep_keep haversine demoPoints _ 1 3 (by norm_num)
  show ¬ (route_distanceG haversine ([0, 2, 1, 3] : List ℕ) demoPoints <
    route_distanceG haversine ([0, 1, 2, 3] : List ℕ) demoPoints)
  exact not_lt.2 demo_dist_le

lemma demo_two_opt : two_opt ([0, 1, 2, 3] : List ℕ) demoPoints = [0, 1, 2, 3] := by
  unfold two_opt two_optG
  rw [two_optLoop, demo_pass]
  simp

lemma demo_nnNext1 : nnNext haversine demoPoints 0 [1, 2, 3] = 1 := by
  unfold nnNext argminKey
  simp only [List.foldl_cons, List.foldl_nil, demoPoints,
    List.getD_cons_zero, List.getD_cons_succ]
  rw [if_neg (not_lt.2 (le_of_lt hav_00_01_lt_00_02))]
  simp only [List.getD_cons_zero, List.getD_cons_succ]
  rw [if_neg (not_lt.2 (le_of_eq hav_00_10_eq_00_01.symm))]

lemma demo_nnNext2 : nnNext haversine demoPoints 1 [2, 3] = 2 := by
  unfold nnNext argminKey
  simp only [List.foldl_cons, List.foldl_nil, demoPoints,
    List.getD_cons_zero, List.getD_cons_succ]
  rw [if_neg (not_lt.2 (le_of_lt hav_01_02_lt_01_10))]

lemma demo_nnNext3 : nnNext haversine demoPoints 2 [3] = 3 := by
  unfold nnNext argminKey
  rfl

lemma demo_nearest_neighbor : nearest_neighbor demoPoints 0 = [0, 1, 2, 3] := by
  unfold nearest_neighbor nearest_neighborG
  have h0 : (List.range demoPoints.length).erase 0 = [1, 2, 3] := rfl
  rw [h0]
  rw [nnLoop, dif_neg (by simp : ¬([1, 2, 3] : List ℕ) = []), demo_nnNext1]
  show nnLoop haversine demoPoints 1 [2, 3] [0, 1] = [0, 1, 2, 3]
  rw [nnLoop, dif_neg (by simp : ¬([2, 3] : List ℕ) = []), demo_nnNext2]
  show nnLoop haversine demoPoints 2 [3] [0, 1, 2] = [0, 1, 2, 3]
  rw [nnLoop, dif_neg (by simp : ¬([3] : List ℕ) = []), demo_nnNext3]
  show nnLoop haversine demoPoints 3 [] [0, 1, 2, 3] = [0, 1, 2, 3]
  rw [nnLoop]
  rfl

end ConcreteScenario

section Sizes25

variable {α : Type*} [Inhabited α]

lemma build_maps_links_sizes_25 (points : List α) (h : points.length = 25) :
    (build_maps_links points).map (fun dsc => dsc.waypoints.length + 2) =
      [10, 10, 5] := by
  have h1 : points ≠ [] := by
    intro hc
    rw [hc] at h
    simp at h
  have hd1 : (points.drop 10).length = 15 := by
    rw [List.length_drop]
    omega
  have h2 : points.drop 10 ≠ [] := by
    intro hc
    rw [hc] at hd1
    simp at hd1
  have hd2 : ((points.drop 10).drop 10).length = 5 := by
    rw [List.length_drop]
    omega
  have h3 : (points.drop 10).drop 10 ≠ [] := by
    intro hc
    rw [hc] at hd2
    simp at hd2
  have hd3 : (((points.drop 10).drop 10).drop 10) = [] := by
    apply List.eq_nil_of_length_eq_zero
    rw [List.length_drop]
    omega
  rw [build_maps_links_cons points h1, build_maps_links_cons _ h2,
    build_maps_links_cons _ h3, hd3, build_maps_links_nil]
  have l1 : (points.take 10).length = 10 := by
    rw [List.length_take]
    omega
  have l2 : ((points.drop 10).take 10).length = 10 := by
    rw [List.length_take]
    omega
  have l3 : (((points.drop 10).drop 10).take 10).length = 5 := by
    rw [List.length_take]
    omega
  simp only [List.map_cons, List.map_nil, chunkDescriptor]
  rw [if_pos (by omega : 2 < (points.take 10).length),
    if_pos (by omega : 2 < ((points.drop 10).take 10).length),
    if_pos (by omega : 2 < (((points.drop 10).drop 10).take 10).length)]
  have w1 : ((points.take 10).drop 1).dropLast.length = 8 := by
    rw [List.length_dropLast, List.length_drop]
    omega
  have w2 : (((points.drop 10).take 10).drop 1).dropLast.length = 8 := by
    rw [List.length_dropLast, List.length_drop]
    omega
  have w3 : ((((points.drop 10).drop 10).take 10).drop 1).dropLast.length = 3 := by
    rw [List.length_dropLast, List.length_drop]
    omega
  rw [w1, w2, w3]

end Sizes25

section Claims

/-- C1: for every tour and point set, the tour returned by `two_opt` has total
route length (as computed by `route_distance`) less than or equal to the total
route length of the input tour, and its first element equals the first element
of the input tour. -/
theorem claim_C1_two_opt_no_worse_head_fixed (route : List ℕ)
    (points : List (ℝ × ℝ)) :
    route_distance (two_opt route points) points ≤
        route_distance route points ∧
      (two_opt route points).head? = route.head? :=
  ⟨two_optG_le haversine route points, two_optG_head haversine route points⟩

/-- C2 (counterexample to the claim as stated): with 11 points and
`chunk_size = 10`, the destination of descriptor 0 is point 9 while the
origin of descriptor 1 is point 10 — the chunks of `build_maps_links` are
disjoint, so no boundary point is shared between consecutive descriptors. -/
theorem claim_C2_counterexample :
    ¬ (((build_maps_links (List.range 11)).getD 0 ⟨0, 0, []⟩).destination =
        ((build_maps_links (List.range 11)).getD 1 ⟨0, 0, []⟩).origin) := by
  decide

/-- C2 (amended): the chunks of `build_maps_links` are disjoint consecutive
slices; whenever the final chunk is not a singleton (`n % 10 ≠ 1`),
concatenating each descriptor's origin, waypoints and destination
reconstructs the original point sequence exactly, with no point duplicated
at chunk boundaries. -/
theorem claim_C2_amended_flatten_exact {α : Type*} [Inhabited α]
    (points : List α) (h : points.length % 10 ≠ 1) :
    ((build_maps_links points).map
      (fun dsc => dsc.origin :: (dsc.waypoints ++ [dsc.destination]))).flatten =
      points :=
  build_maps_links_flatten points.length points (le_refl _) h

/-- C2 witness: the amended reconstruction statement applied to the 25-point
sequence `0, 1, ..., 24`. -/
theorem claim_C2_amended_flatten_exact_witness :
    (List.range 25).length % 10 ≠ 1 ∧
      ((build_maps_links (List.range 25)).map
        (fun dsc => dsc.origin :: (dsc.waypoints ++ [dsc.destination]))).flatten =
        List.range 25 :=
  ⟨by decide, claim_C2_amended_flatten_exact (List.range 25) (by decide)⟩

/-- C3: for every non-empty point set and every valid `start_index`,
`nearest_neighbor` returns a permutation of all indices `0..n-1` whose first
element is `start_index`. -/
theorem claim_C3_nearest_neighbor_permutation (points : List (ℝ × ℝ))
    (start_index : ℕ) (h1 : points ≠ []) (h2 : start_index < points.length) :
    nearest_neighbor points start_index ~ List.range points.length ∧
      (nearest_neighbor points start_index).head? = some start_index :=
  nearest_neighborG_spec haversine points start_index h2

/-- C3 witness: the permutation statement applied to the four demo points
with `start_index = 0`. -/
theorem claim_C3_nearest_neighbor_permutation_witness :
    demoPoints ≠ [] ∧ 0 < demoPoints.length ∧
      (nearest_neighbor demoPoints 0 ~ List.range demoPoints.length ∧
        (nearest_neighbor demoPoints 0).head? = some 0) :=
  ⟨by simp [demoPoints], by simp [demoPoints],
    claim_C3_nearest_neighbor_permutation demoPoints 0
      (by simp [demoPoints]) (by simp [demoPoints])⟩

/-- C4: `haversine` is symmetric, zero on equal coordinates (exactly, in the
real-number semantics), and always non-negative. -/
theorem claim_C4_haversine_symmetric_zero_nonneg (a b : ℝ × ℝ) :
    haversine a b = haversine b a ∧ haversine a a = 0 ∧ 0 ≤ haversine a b :=
  ⟨haversine_comm a b, haversine_self a, haversine_nonneg a b⟩

/-- C5: for every point sequence of length `n > 0` and `chunk_size = 10`,
`build_maps_links` produces exactly `⌈n/10⌉` descriptors; an input of 25
points yields 3 descriptors whose chunks have sizes 10, 10 and 5 (measured
as origin + waypoints + destination). -/
theorem claim_C5_descriptor_count {α : Type*} [Inhabited α] (points : List α)
    (h : 0 < points.length) :
    (build_maps_links points).length = (points.length + 9) / 10 ∧
      (points.length = 25 →
        (build_maps_links points).map (fun dsc => dsc.waypoints.length + 2) =
          [10, 10, 5]) :=
  ⟨build_maps_links_length points, fun h25 => build_maps_links_sizes_25 points h25⟩

/-- C5 witness: the count statement applied to the 25-point sequence
`0, 1, ..., 24`. -/
theorem claim_C5_descriptor_count_witness :
    0 < (List.range 25).length ∧
      ((build_maps_links (List.range 25)).length =
          ((List.range 25).length + 9) / 10 ∧
        ((List.range 25).length = 25 →
          (build_maps_links (List.range 25)).map
            (fun dsc => dsc.waypoints.length + 2) = [10, 10, 5])) :=
  ⟨by decide, claim_C5_descriptor_count (List.range 25) (by decide)⟩

/-- C6: `two_opt` is a fixed point under further application: re-running it
on its own output leaves the total route length unchanged (in fact the tour
itself is unchanged). -/
theorem claim_C6_two_opt_idempotent_length (t : List ℕ) (p : List (ℝ × ℝ)) :
    route_distance (two_opt (two_opt t p) p) p =
      route_distance (two_opt t p) p := by
  have h : two_opt (two_opt t p) p = two_opt t p :=
    two_optG_fixpoint haversine t p
  rw [h]

/-- C7: a tour of length at most 3 is returned unchanged by `two_opt` (the
loop body never finds a valid, non-trivial pair of cut points). -/
theorem claim_C7_short_tour_unchanged (route : List ℕ)
    (points : List (ℝ × ℝ)) (h : route.length ≤ 3) :
    two_opt route points = route :=
  two_optG_short haversine route points h

/-- C7 witness: the two-stop tour `[0, 1]` on the demo points. -/
theorem claim_C7_short_tour_unchanged_witness :
    ([0, 1] : List ℕ).length ≤ 3 ∧ two_opt [0, 1] demoPoints = [0, 1] :=
  ⟨by decide, claim_C7_short_tour_unchanged [0, 1] demoPoints (by decide)⟩

/-- C8: on the point set `[(0,0), (0,1), (0,2), (1,0)]` with `start_index 0`,
`nearest_neighbor` returns `[0, 1, 2, 3]` (the tie between points 1 and 3 is
broken in favour of the lowest index) and `two_opt` returns that tour
unchanged. -/
theorem claim_C8_demo_scenario :
    nearest_neighbor demoPoints 0 = [0, 1, 2, 3] ∧
      two_opt ([0, 1, 2, 3] : List ℕ) demoPoints = [0, 1, 2, 3] :=
  ⟨demo_nearest_neighbor, demo_two_opt⟩

/-- C9: when the final chunk contains exactly one coordinate
(`n % 10 = 1`, which forces `n > 0`), `build_maps_links` still produces a
well-defined last descriptor, whose origin equals its destination (that
single coordinate) and whose waypoint sequence is empty. -/
theorem claim_C9_singleton_final_chunk {α : Type*} [Inhabited α]
    (points : List α) (h : points.length % 10 = 1) :
    (build_maps_links points).getLast? =
      some ⟨points.getLastD default, points.getLastD default, []⟩ :=
  build_maps_links_last_singleton points.length points (le_refl _) h

/-- C9 witness: the single-point sequence `[5]`. -/
theorem claim_C9_singleton_final_chunk_witness :
    ([5] : List ℕ).length % 10 = 1 ∧
      (build_maps_links ([5] : List ℕ)).getLast? =
        some ⟨([5] : List ℕ).getLastD default, ([5] : List ℕ).getLastD default, []⟩ :=
  ⟨by decide, claim_C9_singleton_final_chunk [5] (by decide)⟩

/-- C10: for every non-empty tour and point set, the last element of the tour
returned by `two_opt` equals the last element of the input tour: the inner
cut point `j` stays strictly below the tour length, so the suffix from `j`
on — in particular the final position — is never moved. -/
theorem claim_C10_two_opt_last_fixed (t : List ℕ) (p : List (ℝ × ℝ))
    (h : t ≠ []) : (two_opt t p).getLast? = t.getLast? :=
  two_optG_last haversine t p

/-- C10 witness: the tour `[0, 1, 2, 3]` on the demo points. -/
theorem claim_C10_two_opt_last_fixed_witness :
    ([0, 1, 2, 3] : List ℕ) ≠ [] ∧
      (two_opt [0, 1, 2, 3] demoPoints).getLast? =
        ([0, 1, 2, 3] : List ℕ).getLast? :=
  ⟨by decide, claim_C10_two_opt_last_fixed [0, 1, 2, 3] demoPoints (by decide)⟩

end Claims
